import Mathlib

/-
Verification of the gesture drawing canvas (MemonM01/Drawing).

The repository contains four variants of the same one-page application:
  - main.js                      (open-palm eraser; isOpenPalm calls an
                                  undefined helper fingerStraight)
  - part_000                     (angle-based open-palm eraser)
  - part_001, first module       (simple fist eraser, pinch 0.085)
  - part_001, second module      (fingerExtended-based fist eraser)
We embed the geometric classifiers and the per-frame interaction loop of
each variant.  Real-number coordinates stand for JS doubles; JS booleans
from numeric comparisons become Props; the canvas 2D command stream is a
list of drawing commands with an explicit raster interpretation.
-/

namespace Drawing

open Real

/-- A planar point: a normalized hand landmark or a canvas pixel position.
JS objects with fields x and y. -/
structure Pt where
  x : ℝ
  y : ℝ

/-- JS (all variants):
function dist(a, b) begins with dx = a.x - b.x and dy = a.y - b.y and
returns Math.hypot(dx, dy), the Euclidean norm of (dx, dy). -/
noncomputable def dist (a b : Pt) : ℝ :=
  Real.sqrt ((a.x - b.x) ^ 2 + (a.y - b.y) ^ 2)

/-- JS (all variants): toPixel(pt, canvas) scales a normalized landmark by
the canvas dimensions.  w and h are canvas.width and canvas.height. -/
def toPixel (pt : Pt) (w h : ℝ) : Pt :=
  ⟨pt.x * w, pt.y * h⟩

/-- A 21-point hand landmark set (MediaPipe hand model, indices 0 to 20),
as returned for one detected hand. -/
def Landmarks : Type := Fin 21 → Pt

/-- The per-frame gesture classification: the three modes of the HUD and
the three branches of the frame loop. -/
inductive Mode
  | draw
  | erase
  | idle
deriving DecidableEq

/-- A command appended to the persistent draw canvas context during one
frame: drawLine strokes a straight segment (lineWidth 6, round cap,
white); eraseAt fills a disk with globalCompositeOperation
destination-out. -/
inductive Cmd
  | line (a b : Pt)
  | eraseDisk (c : Pt) (r : ℝ)

/-- The mutable state the frame loop reads and writes across frames: the
module-level variable lastPoint and the accumulated content of the
persistent draw canvas (the command stream applied to drawCtx, oldest
first). -/
structure St where
  lastPoint : Option Pt
  surface : List Cmd

/-- The set of points covered by drawLine's stroke from a to b: lineWidth
6 and round caps make the stroked region the set of points within
distance 3 of the segment. -/
def onStroke (a b q : Pt) : Prop :=
  ∃ t : ℝ, 0 ≤ t ∧ t ≤ 1 ∧
    dist ⟨a.x + t * (b.x - a.x), a.y + t * (b.y - a.y)⟩ q ≤ 3

/-- The closed disk filled by eraseAt's full-circle arc path at center c
with radius r. -/
def inDisk (c : Pt) (r : ℝ) (q : Pt) : Prop :=
  dist c q ≤ r

/-- Raster interpretation of the persistent surface: replay the command
stream and decide whether point q carries ink.  A stroked line adds its
covered points; a destination-out disk fill clears every point under the
disk and leaves all others untouched. -/
def painted (cmds : List Cmd) (q : Pt) : Prop :=
  cmds.foldl
    (fun acc cmd =>
      match cmd with
      | Cmd.line a b => acc ∨ onStroke a b q
      | Cmd.eraseDisk c r => acc ∧ ¬ inDisk c r q)
    False

/-- One processed frame of the loop body shared by the three working
variants, parameterized by the variant's classifier and eraser radius.
hands is result.landmarks; w, h are the draw canvas dimensions.  With no
hand, only lastPoint is cleared.  With a hand, the index fingertip
(landmark 8) is scaled to pixels and the classifier's mode selects the
branch: erase composites a disk and clears lastPoint; draw strokes a
segment from the stored point when one exists and stores the new point;
idle only clears lastPoint.  (The HUD canvas is transient and not
modeled.) -/
def step (mode : Landmarks → Mode) (radius w h : ℝ)
    (hands : List Landmarks) (s : St) : St :=
  match hands with
  | [] => { s with lastPoint := none }
  | lm :: _ =>
    let p := toPixel (lm 8) w h
    match mode lm with
    | Mode.erase =>
        { lastPoint := none, surface := s.surface ++ [Cmd.eraseDisk p radius] }
    | Mode.draw =>
        { lastPoint := some p
          surface := s.surface ++
            (match s.lastPoint with
             | some q => [Cmd.line q p]
             | none => []) }
    | Mode.idle => { s with lastPoint := none }

/-- A sequence of processed frames, folded through step. -/
def steps (mode : Landmarks → Mode) (radius w h : ℝ)
    (frames : List (List Landmarks)) (s : St) : St :=
  frames.foldl (fun t f => step mode radius w h f t) s

/-- The mode a processed frame exhibits: with no hand, no gesture branch
runs and the frame behaves as IDLE (the spec's forced IDLE); otherwise
the classifier's verdict on the first hand. -/
def frameMode (mode : Landmarks → Mode) (hands : List Landmarks) : Mode :=
  match hands with
  | [] => Mode.idle
  | lm :: _ => mode lm

end Drawing

namespace Drawing.P0

open Drawing

/-- part_000: the pinch threshold literal in isPinching. -/
def pinchThreshold : ℝ := 0.05

/-- part_000: isPinching(lm) compares dist(lm[4], lm[8]) with 0.05. -/
def isPinching (lm : Landmarks) : Prop :=
  dist (lm 4) (lm 8) < pinchThreshold

/-- part_000 angleDeg: the denominator magAB * magCB + 1e-9 of the cosine,
where magAB = Math.hypot of a - b and magCB of c - b (both equal to dist
to b). -/
noncomputable def angleDenom (a b c : Pt) : ℝ :=
  dist a b * dist c b + 1e-9

/-- part_000 angleDeg: the raw cosine dot / (magAB * magCB + 1e-9), with
dot the inner product of a - b and c - b. -/
noncomputable def angleCos (a b c : Pt) : ℝ :=
  ((a.x - b.x) * (c.x - b.x) + (a.y - b.y) * (c.y - b.y)) / angleDenom a b c

/-- part_000 angleDeg: the clamped value Math.max(-1, Math.min(1, cos))
handed to Math.acos. -/
noncomputable def angleClamped (a b c : Pt) : ℝ :=
  max (-1) (min 1 (angleCos a b c))

/-- part_000: angleDeg(a, b, c) = Math.acos(clamped) * 180 / Math.PI, the
angle at b between b-to-a and b-to-c in degrees. -/
noncomputable def angleDeg (a b c : Pt) : ℝ :=
  Real.arccos (angleClamped a b c) * 180 / Real.pi

/-- part_000: fingerStraight holds when both joint angles along the
finger chain exceed 160 degrees. -/
def fingerStraight (lm : Landmarks) (mcp pip dip tip : Fin 21) : Prop :=
  angleDeg (lm mcp) (lm pip) (lm dip) > 160 ∧
  angleDeg (lm pip) (lm dip) (lm tip) > 160

/-- part_000: isOpenPalm requires all four fingers straight and the
index-tip-to-pinky-tip spread above 0.30. -/
def isOpenPalm (lm : Landmarks) : Prop :=
  fingerStraight lm 5 6 7 8 ∧ fingerStraight lm 9 10 11 12 ∧
  fingerStraight lm 13 14 15 16 ∧ fingerStraight lm 17 18 19 20 ∧
  dist (lm 8) (lm 20) > 0.30

/-- part_000: ERASER_RADIUS = 30. -/
def eraserRadius : ℝ := 30

open Classical in
/-- part_000 loop, gesture branch selection: erase on openPalm and not
pinch, else draw on pinch, else idle. -/
noncomputable def classify (lm : Landmarks) : Mode :=
  if isOpenPalm lm ∧ ¬ isPinching lm then Mode.erase
  else if isPinching lm then Mode.draw
  else Mode.idle

end Drawing.P0

namespace Drawing.P1A

open Drawing

/-- part_001 first module: the pinch threshold literal in isPinching. -/
def pinchThreshold : ℝ := 0.085

/-- part_001 first module: pinchDistance(lm) = dist(lm[4], lm[8]). -/
noncomputable def pinchDistance (lm : Landmarks) : ℝ :=
  dist (lm 4) (lm 8)

/-- part_001 first module: isPinching compares pinchDistance with 0.085. -/
def isPinching (lm : Landmarks) : Prop :=
  pinchDistance lm < pinchThreshold

/-- part_001 first module: isFistSimple holds when each of the four
fingertips sits below its PIP joint (larger y). -/
def isFistSimple (lm : Landmarks) : Prop :=
  (lm 8).y > (lm 6).y ∧ (lm 12).y > (lm 10).y ∧
  (lm 16).y > (lm 14).y ∧ (lm 20).y > (lm 18).y

/-- part_001 first module: ERASER_RADIUS = 32. -/
def eraserRadius : ℝ := 32

open Classical in
/-- part_001 first module loop: erase on fist, else draw on pinch, else
idle. -/
noncomputable def classify (lm : Landmarks) : Mode :=
  if isFistSimple lm then Mode.erase
  else if isPinching lm then Mode.draw
  else Mode.idle

end Drawing.P1A

namespace Drawing.P1B

open Drawing

/-- part_001 second module: the pinch threshold literal in isPinching. -/
def pinchThreshold : ℝ := 0.05

/-- part_001 second module: isPinching compares dist(lm[4], lm[8]) with
0.05. -/
def isPinching (lm : Landmarks) : Prop :=
  dist (lm 4) (lm 8) < pinchThreshold

/-- part_001 second module: fingerExtended holds when the tip is farther
from the wrist (landmark 0) than the PIP joint. -/
def fingerExtended (lm : Landmarks) (tipIdx pipIdx : Fin 21) : Prop :=
  dist (lm tipIdx) (lm 0) > dist (lm pipIdx) (lm 0)

/-- part_001 second module: isFist holds when none of the four fingers
nor the thumb is extended. -/
def isFist (lm : Landmarks) : Prop :=
  ¬ fingerExtended lm 8 6 ∧ ¬ fingerExtended lm 12 10 ∧
  ¬ fingerExtended lm 16 14 ∧ ¬ fingerExtended lm 20 18 ∧
  ¬ fingerExtended lm 4 3

/-- part_001 second module: ERASER_RADIUS = 28. -/
def eraserRadius : ℝ := 28

open Classical in
/-- part_001 second module loop: erase on fist, else draw on pinch, else
idle. -/
noncomputable def classify (lm : Landmarks) : Mode :=
  if isFist lm then Mode.erase
  else if isPinching lm then Mode.draw
  else Mode.idle

end Drawing.P1B

namespace Drawing.Main

open Drawing

/-- main.js: the pinch threshold literal in isPinching. -/
def pinchThreshold : ℝ := 0.05

/-- main.js: isPinching compares dist(lm[4], lm[8]) with 0.05. -/
def isPinching (lm : Landmarks) : Prop :=
  dist (lm 4) (lm 8) < pinchThreshold

/-- main.js: fingerExtended holds when the tip is farther from the wrist
than the PIP joint (defined but never called by isOpenPalm). -/
def fingerExtended (lm : Landmarks) (tipIdx pipIdx : Fin 21) : Prop :=
  dist (lm tipIdx) (lm 0) > dist (lm pipIdx) (lm 0)

/-- Every identifier bound at module scope in main.js: the two imported
names, the DOM/context constants, the mutable lastPoint and
ERASER_RADIUS, and each declared function.  No other name is in scope
for a free identifier inside main.js (ES module scoping). -/
def moduleScope : List String :=
  ["FilesetResolver", "HandLandmarker", "video", "drawCanvas", "hudCanvas",
   "drawCtx", "hudCtx", "clearBtn", "resizeCanvasesToVideo", "dist",
   "toPixel", "isPinching", "fingerExtended", "isOpenPalm", "lastPoint",
   "ERASER_RADIUS", "drawLine", "eraseAt", "hudClear", "drawHudCursor",
   "setupCamera", "createHandLandmarker", "run"]

/-- A JavaScript runtime error: resolving an unbound identifier raises
ReferenceError naming the identifier. -/
inductive JsError
  | referenceError (name : String)
deriving DecidableEq

/-- main.js isOpenPalm: its first statement is a call of the free
identifier fingerStraight, which JS resolves against the module scope and
which main.js never declares (only fingerExtended exists), so evaluation
raises ReferenceError before computing anything.  The successful-lookup
branch is dead; its placeholder payload is never produced. -/
def isOpenPalm (lm : Landmarks) : Except JsError Prop :=
  if moduleScope.contains "fingerStraight" then
    Except.ok (dist (lm 8) (lm 20) > 0.35)
  else
    Except.error (JsError.referenceError "fingerStraight")

/-- main.js: ERASER_RADIUS = 28. -/
def eraserRadius : ℝ := 28

open Classical in
/-- main.js loop body for a processed frame, with JS exception
propagation: the hands branch first evaluates isOpenPalm(lm), whose
ReferenceError aborts the frame callback; were it to return, the branch
structure is erase on openPalm, else draw on pinch, else idle. -/
noncomputable def step (w h : ℝ) (hands : List Landmarks) (s : St) :
    Except JsError St :=
  match hands with
  | [] => Except.ok { s with lastPoint := none }
  | lm :: _ =>
    let p := toPixel (lm 8) w h
    match isOpenPalm lm with
    | Except.error e => Except.error e
    | Except.ok openPalm =>
        Except.ok <|
          if openPalm then
            { lastPoint := none,
              surface := s.surface ++ [Cmd.eraseDisk p eraserRadius] }
          else if isPinching lm then
            { lastPoint := some p
              surface := s.surface ++
                (match s.lastPoint with
                 | some q => [Cmd.line q p]
                 | none => []) }
          else { s with lastPoint := none }

end Drawing.Main

namespace Drawing

/-- A concrete landmark set on which part_000's open-palm and pinch tests
hold simultaneously: four spread, vertically collinear fingers (index
column x = 0.1, middle 0.2, ring 0.3, pinky 0.5; chain y = 0.5, 0.4,
0.3, 0.2 from MCP to tip) and the thumb tip at (0.1, 0.21), touching the
index tip (0.1, 0.2).  Entries 0 to 3 are the wrist and lower thumb
chain, unused by part_000's classifier. -/
def palmPinchList : List Pt :=
  [⟨0.3, 0.9⟩, ⟨0.25, 0.85⟩, ⟨0.2, 0.8⟩, ⟨0.15, 0.75⟩, ⟨0.1, 0.21⟩,
   ⟨0.1, 0.5⟩, ⟨0.1, 0.4⟩, ⟨0.1, 0.3⟩, ⟨0.1, 0.2⟩,
   ⟨0.2, 0.5⟩, ⟨0.2, 0.4⟩, ⟨0.2, 0.3⟩, ⟨0.2, 0.2⟩,
   ⟨0.3, 0.5⟩, ⟨0.3, 0.4⟩, ⟨0.3, 0.3⟩, ⟨0.3, 0.2⟩,
   ⟨0.5, 0.5⟩, ⟨0.5, 0.4⟩, ⟨0.5, 0.3⟩, ⟨0.5, 0.2⟩]

/-- The landmark function for palmPinchList. -/
def palmPinchLm : Landmarks :=
  fun i => palmPinchList.getD i ⟨0, 0⟩

/-- A degenerate concrete landmark set with every landmark at (0.5, 0.5):
a pinch (distance 0) that is not a simple fist, classified DRAW by the
first part_001 module. -/
def pinchLm : Landmarks :=
  fun _ => ⟨0.5, 0.5⟩

/-- A concrete landmark set that pinches in every variant while failing
every variant's erase condition: wrist low at (0.5, 0.9), index tip high
at (0.5, 0.2) and above its PIP (0.5, 0.4), thumb tip at (0.5, 0.22)
within pinch range, pinky tip (0.5, 0.3) close to the index tip so the
open-palm spread fails. -/
def pinchOnlyLm : Landmarks :=
  fun i =>
    if i = 0 then ⟨0.5, 0.9⟩
    else if i = 4 then ⟨0.5, 0.22⟩
    else if i = 6 then ⟨0.5, 0.4⟩
    else if i = 8 then ⟨0.5, 0.2⟩
    else if i = 20 then ⟨0.5, 0.3⟩
    else ⟨0.5, 0.5⟩

/-- A concrete landmark set forming a simple fist: the four fingertips
(indices 8, 12, 16, 20) at y = 0.8, below all other landmarks at
y = 0.6. -/
def fistLm : Landmarks :=
  fun i =>
    if i = 8 ∨ i = 12 ∨ i = 16 ∨ i = 20 then ⟨0.5, 0.8⟩ else ⟨0.5, 0.6⟩

end Drawing

namespace Drawing

theorem dist_vertical (x y1 y2 : ℝ) :
    dist ⟨x, y1⟩ ⟨x, y2⟩ = |y1 - y2| := by
  unfold dist
  dsimp only
  rw [sub_self, show (0:ℝ) ^ 2 + (y1 - y2) ^ 2 = (y1 - y2) ^ 2 by ring,
    Real.sqrt_sq_eq_abs]

theorem dist_horizontal (x1 x2 y : ℝ) :
    dist ⟨x1, y⟩ ⟨x2, y⟩ = |x1 - x2| := by
  unfold dist
  dsimp only
  rw [sub_self, show (x1 - x2) ^ 2 + (0:ℝ) ^ 2 = (x1 - x2) ^ 2 by ring,
    Real.sqrt_sq_eq_abs]

theorem dist_self_eq_zero (p : Pt) : dist p p = 0 := by
  unfold dist
  rw [sub_self, sub_self]
  norm_num

end Drawing

namespace Drawing

theorem cos_pi_div_eighteen_lt :
    Real.cos (Real.pi / 18) < 10000000 / 10000001 := by
  have hp1 : (3.14 : ℝ) < Real.pi := Real.pi_gt_d2
  have hp2 : Real.pi < 3.15 := Real.pi_lt_d2
  have hxpos : (0 : ℝ) < Real.pi / 18 := by positivity
  have habs : |Real.pi / 18| ≤ 1 := by
    rw [abs_of_pos hxpos]
    linarith
  have hb := Real.cos_bound habs
  rw [abs_of_pos hxpos] at hb
  have hb1 := (abs_le.mp hb).2
  have hsq : (3.14 / 18 : ℝ) ^ 2 < (Real.pi / 18) ^ 2 := by
    have h18 : (3.14 / 18 : ℝ) < Real.pi / 18 := by linarith
    exact pow_lt_pow_left₀ h18 (by norm_num) (by norm_num)
  have hq : (Real.pi / 18 : ℝ) ^ 4 < (3.15 / 18) ^ 4 := by
    have h18 : (Real.pi / 18 : ℝ) < 3.15 / 18 := by linarith
    exact pow_lt_pow_left₀ h18 (le_of_lt hxpos) (by norm_num)
  nlinarith [hb1, hsq, hq]

theorem arccos_neg_big_ge :
    17 * Real.pi / 18 ≤ Real.arccos (-(10000000 / 10000001)) := by
  have hpi : (0 : ℝ) < Real.pi := Real.pi_pos
  have hd : Real.cos (17 * Real.pi / 18) = -Real.cos (Real.pi / 18) := by
    rw [show 17 * Real.pi / 18 = Real.pi - Real.pi / 18 by ring, Real.cos_pi_sub]
  have hcd : (-(10000000 / 10000001) : ℝ) ≤ Real.cos (17 * Real.pi / 18) := by
    rw [hd]
    have := cos_pi_div_eighteen_lt
    linarith
  have hmono := Real.monotone_arcsin hcd
  have harc : Real.arcsin (Real.cos (17 * Real.pi / 18)) =
      Real.pi / 2 - 17 * Real.pi / 18 := by
    have h1 : Real.arccos (Real.cos (17 * Real.pi / 18)) = 17 * Real.pi / 18 :=
      Real.arccos_cos (by nlinarith) (by nlinarith)
    have h2 := Real.arccos_eq_pi_div_two_sub_arcsin (Real.cos (17 * Real.pi / 18))
    linarith
  have h3 := Real.arccos_eq_pi_div_two_sub_arcsin (-(10000000 / 10000001) : ℝ)
  rw [harc] at hmono
  linarith

theorem angleCos_vertical (x ya yb yc : ℝ) (h1 : ya - yb = 0.1)
    (h2 : yc - yb = -0.1) :
    P0.angleCos ⟨x, ya⟩ ⟨x, yb⟩ ⟨x, yc⟩ = -(10000000 / 10000001) := by
  unfold P0.angleCos P0.angleDenom dist
  dsimp only
  rw [sub_self, h1, h2]
  have e1 : ((0 : ℝ)) ^ 2 + (0.1 : ℝ) ^ 2 = (0.1 : ℝ) ^ 2 := by norm_num
  have e2 : ((0 : ℝ)) ^ 2 + (-0.1 : ℝ) ^ 2 = (0.1 : ℝ) ^ 2 := by norm_num
  rw [e1, e2, Real.sqrt_sq (by norm_num : (0 : ℝ) ≤ 0.1)]
  norm_num

theorem angleDeg_vertical (x ya yb yc : ℝ) (h1 : ya - yb = 0.1)
    (h2 : yc - yb = -0.1) :
    160 < P0.angleDeg ⟨x, ya⟩ ⟨x, yb⟩ ⟨x, yc⟩ := by
  have hc := angleCos_vertical x ya yb yc h1 h2
  have hcl : P0.angleClamped ⟨x, ya⟩ ⟨x, yb⟩ ⟨x, yc⟩ =
      -(10000000 / 10000001) := by
    unfold P0.angleClamped
    rw [hc, min_eq_right (by norm_num), max_eq_right (by norm_num)]
  unfold P0.angleDeg
  rw [hcl]
  have hpi : (0 : ℝ) < Real.pi := Real.pi_pos
  have h := arccos_neg_big_ge
  rw [lt_div_iff₀ hpi]
  nlinarith [h]

end Drawing

namespace Drawing

theorem palmPinch_pinching : P0.isPinching palmPinchLm := by
  have h4 : palmPinchLm 4 = ⟨0.1, 0.21⟩ := rfl
  have h8 : palmPinchLm 8 = ⟨0.1, 0.2⟩ := rfl
  unfold P0.isPinching P0.pinchThreshold
  rw [h4, h8, dist_vertical]
  rw [show |(0.21 : ℝ) - 0.2| = 0.01 by rw [abs_of_pos] <;> norm_num]
  norm_num

theorem palmPinch_openPalm : P0.isOpenPalm palmPinchLm := by
  refine ⟨⟨?_, ?_⟩, ⟨?_, ?_⟩, ⟨?_, ?_⟩, ⟨?_, ?_⟩, ?_⟩
  · show 160 < P0.angleDeg ⟨0.1, 0.5⟩ ⟨0.1, 0.4⟩ ⟨0.1, 0.3⟩
    exact angleDeg_vertical 0.1 0.5 0.4 0.3 (by norm_num) (by norm_num)
  · show 160 < P0.angleDeg ⟨0.1, 0.4⟩ ⟨0.1, 0.3⟩ ⟨0.1, 0.2⟩
    exact angleDeg_vertical 0.1 0.4 0.3 0.2 (by norm_num) (by norm_num)
  · show 160 < P0.angleDeg ⟨0.2, 0.5⟩ ⟨0.2, 0.4⟩ ⟨0.2, 0.3⟩
    exact angleDeg_vertical 0.2 0.5 0.4 0.3 (by norm_num) (by norm_num)
  · show 160 < P0.angleDeg ⟨0.2, 0.4⟩ ⟨0.2, 0.3⟩ ⟨0.2, 0.2⟩
    exact angleDeg_vertical 0.2 0.4 0.3 0.2 (by norm_num) (by norm_num)
  · show 160 < P0.angleDeg ⟨0.3, 0.5⟩ ⟨0.3, 0.4⟩ ⟨0.3, 0.3⟩
    exact angleDeg_vertical 0.3 0.5 0.4 0.3 (by norm_num) (by norm_num)
  · show 160 < P0.angleDeg ⟨0.3, 0.4⟩ ⟨0.3, 0.3⟩ ⟨0.3, 0.2⟩
    exact angleDeg_vertical 0.3 0.4 0.3 0.2 (by norm_num) (by norm_num)
  · show 160 < P0.angleDeg ⟨0.5, 0.5⟩ ⟨0.5, 0.4⟩ ⟨0.5, 0.3⟩
    exact angleDeg_vertical 0.5 0.5 0.4 0.3 (by norm_num) (by norm_num)
  · show 160 < P0.angleDeg ⟨0.5, 0.4⟩ ⟨0.5, 0.3⟩ ⟨0.5, 0.2⟩
    exact angleDeg_vertical 0.5 0.4 0.3 0.2 (by norm_num) (by norm_num)
  · show dist ⟨0.1, 0.2⟩ ⟨0.5, 0.2⟩ > 0.30
    rw [dist_horizontal]
    rw [show |(0.1 : ℝ) - 0.5| = 0.4 by rw [abs_of_neg] <;> norm_num]
    norm_num

end Drawing

namespace Drawing

/-- C1: the claim states that every landmark set satisfying a variant's
erase condition is classified ERASE regardless of the pinch test.  The
part_000 variant violates this: the concrete landmark set palmPinchLm
satisfies its open-palm erase condition and its pinch test, yet the
guard openPalm AND NOT pinch lets the pinch branch win and the frame is
classified DRAW — contradicting the claim and the code's own comment
that erase wins over draw. -/
theorem C1_part000_palm_pinch_classified_draw :
    P0.isOpenPalm palmPinchLm ∧ P0.isPinching palmPinchLm ∧
    P0.classify palmPinchLm = Mode.draw := by
  have hpinch := palmPinch_pinching
  refine ⟨palmPinch_openPalm, hpinch, ?_⟩
  unfold P0.classify
  rw [if_neg (fun h => h.2 hpinch), if_pos hpinch]

end Drawing

namespace Drawing

theorem step_nil (mode : Landmarks → Mode) (radius w h : ℝ) (s : St) :
    step mode radius w h [] s = { s with lastPoint := none } := rfl

theorem step_erase (mode : Landmarks → Mode) (radius w h : ℝ)
    (lm : Landmarks) (rest : List Landmarks) (s : St)
    (hm : mode lm = Mode.erase) :
    step mode radius w h (lm :: rest) s =
      { lastPoint := none,
        surface := s.surface ++ [Cmd.eraseDisk (toPixel (lm 8) w h) radius] } := by
  unfold step
  dsimp only
  rw [hm]

theorem step_idle (mode : Landmarks → Mode) (radius w h : ℝ)
    (lm : Landmarks) (rest : List Landmarks) (s : St)
    (hm : mode lm = Mode.idle) :
    step mode radius w h (lm :: rest) s = { s with lastPoint := none } := by
  unfold step
  dsimp only
  rw [hm]

theorem step_draw (mode : Landmarks → Mode) (radius w h : ℝ)
    (lm : Landmarks) (rest : List Landmarks) (s : St)
    (hm : mode lm = Mode.draw) :
    step mode radius w h (lm :: rest) s =
      { lastPoint := some (toPixel (lm 8) w h),
        surface := s.surface ++
          (match s.lastPoint with
           | some q => [Cmd.line q (toPixel (lm 8) w h)]
           | none => []) } := by
  unfold step
  dsimp only
  rw [hm]

/-- C5: a frame with an empty hand list behaves as IDLE: the stored draw
position is cleared and the persistent surface is untouched, for every
variant's classifier and radius. -/
theorem C5_zero_hands_idle (mode : Landmarks → Mode) (radius w h : ℝ)
    (s : St) :
    frameMode mode [] = Mode.idle ∧
    (step mode radius w h [] s).lastPoint = none ∧
    (step mode radius w h [] s).surface = s.surface :=
  ⟨rfl, rfl, rfl⟩

/-- C10: invariant of the per-frame update: the stored last draw position
is non-null after a frame exactly when that frame had at least one
detected hand and was classified DRAW; the erase, idle and zero-hand
branches all clear it. -/
theorem C10_lastPoint_iff_draw (mode : Landmarks → Mode) (radius w h : ℝ)
    (hands : List Landmarks) (s : St) :
    (step mode radius w h hands s).lastPoint ≠ none ↔
      ∃ lm rest, hands = lm :: rest ∧ mode lm = Mode.draw := by
  cases hands with
  | nil =>
    rw [step_nil]
    simp
  | cons lm rest =>
    cases hm : mode lm with
    | draw =>
      rw [step_draw mode radius w h lm rest s hm]
      simp [hm]
    | erase =>
      rw [step_erase mode radius w h lm rest s hm]
      constructor
      · intro hfalse
        exact absurd rfl hfalse
      · rintro ⟨a, b, hab, hd⟩
        injection hab with he1 he2
        subst he1
        rw [hm] at hd
        exact Mode.noConfusion hd
    | idle =>
      rw [step_idle mode radius w h lm rest s hm]
      constructor
      · intro hfalse
        exact absurd rfl hfalse
      · rintro ⟨a, b, hab, hd⟩
        injection hab with he1 he2
        subst he1
        rw [hm] at hd
        exact Mode.noConfusion hd

end Drawing

namespace Drawing

/-- C2: on a DRAW-classified frame, when a stored draw position P1 exists
exactly one straight segment from P1 to the current fingertip pixel
position is appended to the persistent surface and the position is
updated; when none exists, nothing is appended and only the position is
recorded. -/
theorem C2_draw_appends_one_segment (mode : Landmarks → Mode)
    (radius w h : ℝ) (lm : Landmarks) (rest : List Landmarks) (s : St)
    (hdraw : mode lm = Mode.draw) :
    (∀ p1, s.lastPoint = some p1 →
      step mode radius w h (lm :: rest) s =
        { lastPoint := some (toPixel (lm 8) w h),
          surface := s.surface ++ [Cmd.line p1 (toPixel (lm 8) w h)] }) ∧
    (s.lastPoint = none →
      step mode radius w h (lm :: rest) s =
        { lastPoint := some (toPixel (lm 8) w h), surface := s.surface }) := by
  constructor
  · intro p1 hp
    rw [step_draw mode radius w h lm rest s hdraw, hp]
  · intro hp
    rw [step_draw mode radius w h lm rest s hdraw, hp]
    simp

theorem classify_pinchLm_draw : P1A.classify pinchLm = Mode.draw := by
  have hnf : ¬ P1A.isFistSimple pinchLm := by
    intro hf
    have h1 : ((0.5 : ℝ)) > 0.5 := hf.1
    exact absurd h1 (lt_irrefl _)
  have hp : P1A.isPinching pinchLm := by
    unfold P1A.isPinching P1A.pinchDistance P1A.pinchThreshold
    have he : pinchLm 4 = pinchLm 8 := rfl
    rw [he, dist_self_eq_zero]
    norm_num
  unfold P1A.classify
  rw [if_neg hnf, if_pos hp]

/-- C2 witness at a concrete DRAW frame with a stored previous point. -/
theorem C2_witness :
    step P1A.classify P1A.eraserRadius 100 100 [pinchLm]
        { lastPoint := some ⟨1, 2⟩, surface := [] } =
      { lastPoint := some (toPixel (pinchLm 8) 100 100),
        surface := [Cmd.line ⟨1, 2⟩ (toPixel (pinchLm 8) 100 100)] } := by
  have h := (C2_draw_appends_one_segment P1A.classify P1A.eraserRadius 100 100
    pinchLm [] { lastPoint := some ⟨1, 2⟩, surface := [] }
    classify_pinchLm_draw).1 ⟨1, 2⟩ rfl
  rw [h]
  rfl

end Drawing

namespace Drawing

/-- C8: in every variant the pinch test holds exactly when the Euclidean
distance in normalized coordinates between the thumb tip (landmark 4)
and the index tip (landmark 8) is strictly below the variant's fixed
threshold, and each threshold lies in the range 0.05 to 0.085. -/
theorem C8_pinch_test_thresholds (lm : Landmarks) :
    (Main.isPinching lm ↔ dist (lm 4) (lm 8) < Main.pinchThreshold) ∧
    (P0.isPinching lm ↔ dist (lm 4) (lm 8) < P0.pinchThreshold) ∧
    (P1A.isPinching lm ↔ dist (lm 4) (lm 8) < P1A.pinchThreshold) ∧
    (P1B.isPinching lm ↔ dist (lm 4) (lm 8) < P1B.pinchThreshold) ∧
    (0.05 ≤ Main.pinchThreshold ∧ Main.pinchThreshold ≤ 0.085) ∧
    (0.05 ≤ P0.pinchThreshold ∧ P0.pinchThreshold ≤ 0.085) ∧
    (0.05 ≤ P1A.pinchThreshold ∧ P1A.pinchThreshold ≤ 0.085) ∧
    (0.05 ≤ P1B.pinchThreshold ∧ P1B.pinchThreshold ≤ 0.085) := by
  refine ⟨Iff.rfl, Iff.rfl, Iff.rfl, Iff.rfl, ⟨?_, ?_⟩, ⟨?_, ?_⟩, ⟨?_, ?_⟩,
    ⟨?_, ?_⟩⟩ <;>
    norm_num [Main.pinchThreshold, P0.pinchThreshold, P1A.pinchThreshold,
      P1B.pinchThreshold]

/-- C9: the joint-angle computation of part_000 is total on all inputs,
degenerate triples included: the cosine's denominator (the product of the
vector magnitudes plus the 1e-9 epsilon) is strictly positive, the value
passed to arc-cosine is clamped into the closed interval from -1 to 1,
and the returned angle is a real value between 0 and 180 degrees. -/
theorem C9_angleDeg_total (a b c : Pt) :
    0 < P0.angleDenom a b c ∧
    -1 ≤ P0.angleClamped a b c ∧ P0.angleClamped a b c ≤ 1 ∧
    0 ≤ P0.angleDeg a b c ∧ P0.angleDeg a b c ≤ 180 := by
  refine ⟨?_, ?_, ?_, ?_, ?_⟩
  · unfold P0.angleDenom dist
    have h1 := Real.sqrt_nonneg ((a.x - b.x) ^ 2 + (a.y - b.y) ^ 2)
    have h2 := Real.sqrt_nonneg ((c.x - b.x) ^ 2 + (c.y - b.y) ^ 2)
    nlinarith [mul_nonneg h1 h2]
  · exact le_max_left _ _
  · exact max_le (by norm_num) (min_le_left _ _)
  · unfold P0.angleDeg
    exact div_nonneg
      (mul_nonneg (Real.arccos_nonneg _) (by norm_num)) Real.pi_pos.le
  · unfold P0.angleDeg
    have h := Real.arccos_le_pi (P0.angleClamped a b c)
    rw [div_le_iff₀ Real.pi_pos]
    nlinarith [h, Real.pi_pos]

end Drawing

namespace Drawing

/-- C7: in each variant with a reachable classifier, a landmark set whose
thumb-tip/index-tip distance is below the pinch threshold and whose erase
condition fails is classified DRAW. -/
theorem C7_pinch_without_erase_draws (lm : Landmarks) :
    (P0.isPinching lm → ¬ P0.isOpenPalm lm → P0.classify lm = Mode.draw) ∧
    (P1A.isPinching lm → ¬ P1A.isFistSimple lm →
      P1A.classify lm = Mode.draw) ∧
    (P1B.isPinching lm → ¬ P1B.isFist lm → P1B.classify lm = Mode.draw) := by
  refine ⟨fun hp hno => ?_, fun hp hnf => ?_, fun hp hnf => ?_⟩
  · unfold P0.classify
    rw [if_neg (fun hcontra => hno hcontra.1), if_pos hp]
  · unfold P1A.classify
    rw [if_neg hnf, if_pos hp]
  · unfold P1B.classify
    rw [if_neg hnf, if_pos hp]

theorem pinchOnly_pinch_dist : dist (pinchOnlyLm 4) (pinchOnlyLm 8) = 0.02 := by
  have h4 : pinchOnlyLm 4 = ⟨0.5, 0.22⟩ := rfl
  have h8 : pinchOnlyLm 8 = ⟨0.5, 0.2⟩ := rfl
  rw [h4, h8, dist_vertical]
  rw [abs_of_pos] <;> norm_num

theorem pinchOnly_not_openPalm : ¬ P0.isOpenPalm pinchOnlyLm := by
  intro h
  have hspread : dist (pinchOnlyLm 8) (pinchOnlyLm 20) > 0.30 := h.2.2.2.2
  have h8 : pinchOnlyLm 8 = ⟨0.5, 0.2⟩ := rfl
  have h20 : pinchOnlyLm 20 = ⟨0.5, 0.3⟩ := rfl
  rw [h8, h20, dist_vertical] at hspread
  rw [show |(0.2 : ℝ) - 0.3| = 0.1 by rw [abs_of_neg] <;> norm_num] at hspread
  norm_num at hspread

theorem pinchOnly_not_fistSimple : ¬ P1A.isFistSimple pinchOnlyLm := by
  intro h
  have h1 : (pinchOnlyLm 8).y > (pinchOnlyLm 6).y := h.1
  have h8 : pinchOnlyLm 8 = ⟨0.5, 0.2⟩ := rfl
  have h6 : pinchOnlyLm 6 = ⟨0.5, 0.4⟩ := rfl
  rw [h8, h6] at h1
  norm_num at h1

theorem pinchOnly_not_fist : ¬ P1B.isFist pinchOnlyLm := by
  intro h
  apply h.1
  show dist (pinchOnlyLm 8) (pinchOnlyLm 0) > dist (pinchOnlyLm 6) (pinchOnlyLm 0)
  have h8 : pinchOnlyLm 8 = ⟨0.5, 0.2⟩ := rfl
  have h6 : pinchOnlyLm 6 = ⟨0.5, 0.4⟩ := rfl
  have h0 : pinchOnlyLm 0 = ⟨0.5, 0.9⟩ := rfl
  rw [h8, h6, h0, dist_vertical, dist_vertical]
  rw [show |(0.2 : ℝ) - 0.9| = 0.7 by rw [abs_of_neg] <;> norm_num,
    show |(0.4 : ℝ) - 0.9| = 0.5 by rw [abs_of_neg] <;> norm_num]
  norm_num

/-- C7 witness: the concrete pinch-only landmark set is classified DRAW
by all three reachable variants. -/
theorem C7_witness :
    P0.classify pinchOnlyLm = Mode.draw ∧
    P1A.classify pinchOnlyLm = Mode.draw ∧
    P1B.classify pinchOnlyLm = Mode.draw := by
  have hd := pinchOnly_pinch_dist
  have hp0 : P0.isPinching pinchOnlyLm := by
    unfold P0.isPinching P0.pinchThreshold
    rw [hd]
    norm_num
  have hp1a : P1A.isPinching pinchOnlyLm := by
    unfold P1A.isPinching P1A.pinchDistance P1A.pinchThreshold
    rw [hd]
    norm_num
  have hp1b : P1B.isPinching pinchOnlyLm := by
    unfold P1B.isPinching P1B.pinchThreshold
    rw [hd]
    norm_num
  have h := C7_pinch_without_erase_draws pinchOnlyLm
  exact ⟨h.1 hp0 pinchOnly_not_openPalm, h.2.1 hp1a pinchOnly_not_fistSimple,
    h.2.2 hp1b pinchOnly_not_fist⟩

end Drawing

namespace Drawing

theorem nonDraw_step_lastPoint (mode : Landmarks → Mode) (radius w h : ℝ)
    (f : List Landmarks) (s : St) (hf : frameMode mode f ≠ Mode.draw) :
    (step mode radius w h f s).lastPoint = none := by
  cases f with
  | nil => rfl
  | cons lm rest =>
    have hm : mode lm ≠ Mode.draw := hf
    cases hmode : mode lm with
    | draw => exact absurd hmode hm
    | erase => rw [step_erase mode radius w h lm rest s hmode]
    | idle => rw [step_idle mode radius w h lm rest s hmode]

theorem nonDraw_steps_lastPoint (mode : Landmarks → Mode) (radius w h : ℝ)
    (gap : List (List Landmarks)) (s : St) (hne : gap ≠ [])
    (hnd : ∀ f ∈ gap, frameMode mode f ≠ Mode.draw) :
    (steps mode radius w h gap s).lastPoint = none := by
  induction gap generalizing s with
  | nil => exact absurd rfl hne
  | cons f fs ih =>
    have hstep : steps mode radius w h (f :: fs) s =
        steps mode radius w h fs (step mode radius w h f s) := rfl
    rw [hstep]
    cases fs with
    | nil =>
      exact nonDraw_step_lastPoint mode radius w h f s
        (hnd f (List.mem_cons_self f []))
    | cons g gs =>
      exact ih (step mode radius w h f s) (List.cons_ne_nil g gs)
        (fun x hx => hnd x (List.mem_cons_of_mem f hx))

/-- C4: after a DRAW frame, any nonempty run of non-DRAW frames (idle,
erase or zero-hand) clears the stored draw position, so the next
DRAW-classified frame appends no segment at all — nothing can connect a
pre-gap fingertip position to a post-gap one — and only records the new
position. -/
theorem C4_gap_never_connects (mode : Landmarks → Mode) (radius w h : ℝ)
    (gap : List (List Landmarks)) (hne : gap ≠ [])
    (hnd : ∀ f ∈ gap, frameMode mode f ≠ Mode.draw) (s : St)
    (lm2 : Landmarks) (rest2 : List Landmarks)
    (hdraw2 : mode lm2 = Mode.draw) :
    (steps mode radius w h gap s).lastPoint = none ∧
    (step mode radius w h (lm2 :: rest2)
        (steps mode radius w h gap s)).surface =
      (steps mode radius w h gap s).surface ∧
    (step mode radius w h (lm2 :: rest2)
        (steps mode radius w h gap s)).lastPoint =
      some (toPixel (lm2 8) w h) := by
  have h1 := nonDraw_steps_lastPoint mode radius w h gap s hne hnd
  have h2 := step_draw mode radius w h lm2 rest2
    (steps mode radius w h gap s) hdraw2
  rw [h2, h1]
  refine ⟨rfl, ?_, rfl⟩
  simp

end Drawing

namespace Drawing

/-- C4 witness: DRAW state, then a zero-hand gap frame, then a concrete
DRAW frame — the gap clears the stored point and the post-gap DRAW frame
appends nothing. -/
theorem C4_witness :
    (steps P1A.classify P1A.eraserRadius 100 100 [[]]
        { lastPoint := some ⟨1, 2⟩, surface := [] }).lastPoint = none ∧
    (step P1A.classify P1A.eraserRadius 100 100 [pinchLm]
        (steps P1A.classify P1A.eraserRadius 100 100 [[]]
          { lastPoint := some ⟨1, 2⟩, surface := [] })).surface =
      (steps P1A.classify P1A.eraserRadius 100 100 [[]]
        { lastPoint := some ⟨1, 2⟩, surface := [] }).surface ∧
    (step P1A.classify P1A.eraserRadius 100 100 [pinchLm]
        (steps P1A.classify P1A.eraserRadius 100 100 [[]]
          { lastPoint := some ⟨1, 2⟩, surface := [] })).lastPoint =
      some (toPixel (pinchLm 8) 100 100) :=
  C4_gap_never_connects P1A.classify P1A.eraserRadius 100 100 [[]]
    (List.cons_ne_nil [] [])
    (fun f hf => by
      rw [List.mem_singleton] at hf
      subst hf
      intro hcontra
      exact Mode.noConfusion hcontra)
    { lastPoint := some ⟨1, 2⟩, surface := [] } pinchLm []
    classify_pinchLm_draw

theorem painted_append_erase (cmds : List Cmd) (p : Pt) (r : ℝ) (q : Pt) :
    painted (cmds ++ [Cmd.eraseDisk p r]) q ↔
      painted cmds q ∧ ¬ inDisk p r q := by
  unfold painted
  rw [List.foldl_append]
  exact Iff.rfl

/-- C6: an ERASE-classified frame at fingertip pixel position p appends a
single destination-out disk fill of the fixed radius: the stored draw
position is cleared, previously drawn pixels outside the disk centered at
p are unchanged, and every pixel under the disk is cleared. -/
theorem C6_erase_frame_effect (mode : Landmarks → Mode) (radius w h : ℝ)
    (lm : Landmarks) (rest : List Landmarks) (s : St)
    (herase : mode lm = Mode.erase) :
    (step mode radius w h (lm :: rest) s).lastPoint = none ∧
    (step mode radius w h (lm :: rest) s).surface =
      s.surface ++ [Cmd.eraseDisk (toPixel (lm 8) w h) radius] ∧
    (∀ q, ¬ inDisk (toPixel (lm 8) w h) radius q →
      (painted (step mode radius w h (lm :: rest) s).surface q ↔
        painted s.surface q)) ∧
    (∀ q, inDisk (toPixel (lm 8) w h) radius q →
      ¬ painted (step mode radius w h (lm :: rest) s).surface q) := by
  have hs := step_erase mode radius w h lm rest s herase
  rw [hs]
  dsimp only
  refine ⟨rfl, rfl, fun q hq => ?_, fun q hq hp => ?_⟩
  · rw [painted_append_erase]
    exact ⟨fun hpq => hpq.1, fun hpq => ⟨hpq, hq⟩⟩
  · rw [painted_append_erase] at hp
    exact hp.2 hq

theorem classify_fistLm_erase : P1A.classify fistLm = Mode.erase := by
  have h86 : (fistLm 8).y > (fistLm 6).y := by
    show (0.8 : ℝ) > 0.6
    norm_num
  have h1210 : (fistLm 12).y > (fistLm 10).y := by
    show (0.8 : ℝ) > 0.6
    norm_num
  have h1614 : (fistLm 16).y > (fistLm 14).y := by
    show (0.8 : ℝ) > 0.6
    norm_num
  have h2018 : (fistLm 20).y > (fistLm 18).y := by
    show (0.8 : ℝ) > 0.6
    norm_num
  unfold P1A.classify
  rw [if_pos ⟨h86, h1210, h1614, h2018⟩]

/-- C6 witness: a concrete fist frame from an empty surface — position
cleared, exactly one disk erase appended, an outside pixel keeps its
(empty) ink state, the center pixel carries no ink. -/
theorem C6_witness :
    (step P1A.classify P1A.eraserRadius 100 100 [fistLm]
        { lastPoint := none, surface := [] }).lastPoint = none ∧
    (step P1A.classify P1A.eraserRadius 100 100 [fistLm]
        { lastPoint := none, surface := [] }).surface =
      [Cmd.eraseDisk (toPixel (fistLm 8) 100 100) P1A.eraserRadius] ∧
    (painted (step P1A.classify P1A.eraserRadius 100 100 [fistLm]
        { lastPoint := none, surface := [] }).surface ⟨50, 200⟩ ↔
      painted ([] : List Cmd) ⟨50, 200⟩) ∧
    ¬ painted (step P1A.classify P1A.eraserRadius 100 100 [fistLm]
        { lastPoint := none, surface := [] }).surface
      (toPixel (fistLm 8) 100 100) := by
  have hc : toPixel (fistLm 8) 100 100 = ⟨50, 80⟩ := by
    show toPixel ⟨0.5, 0.8⟩ 100 100 = ⟨50, 80⟩
    unfold toPixel
    norm_num [Pt.mk.injEq]
  have hout : ¬ inDisk (toPixel (fistLm 8) 100 100) P1A.eraserRadius
      ⟨50, 200⟩ := by
    rw [hc]
    unfold inDisk P1A.eraserRadius
    rw [dist_vertical, show |(80 : ℝ) - 200| = 120 by
      rw [abs_of_neg] <;> norm_num]
    norm_num
  have hcen : inDisk (toPixel (fistLm 8) 100 100) P1A.eraserRadius
      (toPixel (fistLm 8) 100 100) := by
    unfold inDisk P1A.eraserRadius
    rw [dist_self_eq_zero]
    norm_num
  have h := C6_erase_frame_effect P1A.classify P1A.eraserRadius 100 100
    fistLm [] { lastPoint := none, surface := [] } classify_fistLm_erase
  refine ⟨h.1, ?_, ?_, ?_⟩
  · rw [h.2.1]
    rfl
  · exact h.2.2.1 ⟨50, 200⟩ hout
  · exact h.2.2.2 (toPixel (fistLm 8) 100 100) hcen

end Drawing

namespace Drawing

/-- C3: main.js's isOpenPalm calls fingerStraight, which is not bound
anywhere in main.js's module scope (only fingerExtended is defined), so
on every frame with at least one detected hand the classifier raises a
ReferenceError and the frame update does not complete: it is not total. -/
theorem C3_main_frame_update_not_total :
    ("fingerStraight" ∈ Main.moduleScope ↔ False) ∧
    "fingerExtended" ∈ Main.moduleScope ∧
    ∀ (w h : ℝ) (lm : Landmarks) (rest : List Landmarks) (s : St),
      Main.step w h (lm :: rest) s =
        Except.error (Main.JsError.referenceError "fingerStraight") := by
  refine ⟨by decide, by decide, fun w h lm rest s => ?_⟩
  have hc : Main.moduleScope.contains "fingerStraight" = false := by decide
  unfold Main.step
  dsimp only
  unfold Main.isOpenPalm
  rw [hc]
  rfl

/-- C3 witness: the error at a concrete frame and state. -/
theorem C3_witness :
    Main.step 100 100 [pinchLm] { lastPoint := none, surface := [] } =
      Except.error (Main.JsError.referenceError "fingerStraight") :=
  C3_main_frame_update_not_total.2.2 100 100 pinchLm []
    { lastPoint := none, surface := [] }

end Drawing
